import Mathlib

/-!
Shallow embedding of the batch execution engine of `siyuan-mcp-server`
(`src/utils/batchOptimizer.ts` and `src/utils/retry.ts`), together with
theorems settling the frozen claims about it.

Modelling conventions:
* JavaScript numbers are modelled as `ℚ` where fractional arithmetic matters
  (adaptive tuning, delays, average statistics) and as `ℕ` for counters and
  sizes that the program only ever uses integrally.
* A rejected promise / thrown value is an `Except .error`.  A thrown JS
  `Error` object is a `JsError` (its `message` property may be `undefined`,
  modelled by `Option`); the value `undefined` itself being thrown is
  modelled by `Option JsError = none` where it can occur.
* Wall-clock effects (`setTimeout` pauses, `executionTime`, memory sampling
  and GC) have no influence on the values the functions return, and are not
  modelled; the fields of `BatchConfig` that only feed those effects
  (`delay`, `timeoutMs`, `memoryThreshold`) are therefore not parameters of
  the batch execution model.  A per-attempt timeout surfaces as an ordinary
  rejection of that attempt (`Error('操作超时')`), so it is covered by the
  attempt-indexed outcome functions below.
* Asynchronous interleaving: the engine runs on a single-threaded event
  loop; per-item results are aggregated by `forEach` over the array returned
  by `Promise.all`, which is in input order, so the aggregation is
  order-deterministic and is modelled as a fold over the item list.
-/

/-- Model of a thrown JS `Error` object as used by `batchOptimizer.ts`:
only its `message` property is read there, and that property may be
`undefined`. -/
structure JsError where
  message : Option String
deriving Repr, DecidableEq

/-- Semantics of the JS idiom `x || dflt` applied to an optional string
property: `undefined` and the empty string are falsy. -/
def jsOrElse (o : Option String) (dflt : String) : String :=
  match o with
  | none => dflt
  | some s => if s = "" then dflt else s

/-- The `TypeError` raised by evaluating `error.message` when the caught
value `error` is `undefined` (this happens in `processBatchConcurrently`
when `processWithRetry` executes `throw lastError!` with `lastError`
never assigned, i.e. when `retryAttempts = 0`). -/
def undefinedMessageTypeError : JsError :=
  { message := some "Cannot read properties of undefined (reading 'message')" }

/-- Loop body of `BatchOptimizer.processWithRetry`
(`src/utils/batchOptimizer.ts:253-281`): `for (attempt = 1; attempt <=
retryAttempts; attempt++) { try { return await ...processor... } catch
{ lastError = error } }`.  `attempt` is the 1-based attempt counter,
`remaining` the number of loop iterations still allowed, `lastError` the
last caught error (`none` = still unassigned), `invocations` counts
processor invocations (instrumentation, mirrors nothing in the source
state).  Returns the settled result — `.error none` models
`throw lastError!` with `lastError` undefined — paired with the number of
processor invocations performed.  The inter-attempt backoff delay
(`min(1000·2^(attempt-1), 5000)` ms) only suspends and is not modelled. -/
def retryLoop {ρ : Type} (outcome : ℕ → Except JsError ρ) (attempt : ℕ)
    (remaining : ℕ) (lastError : Option JsError) (invocations : ℕ) :
    Except (Option JsError) ρ × ℕ :=
  match remaining with
  | 0 => (.error lastError, invocations)
  | r + 1 =>
    match outcome attempt with
    | .ok v => (.ok v, invocations + 1)
    | .error e => retryLoop outcome (attempt + 1) r (some e) (invocations + 1)

/-- Model of `BatchOptimizer.processWithRetry` for one item
(`src/utils/batchOptimizer.ts:247-284`).  `outcome k` is the settled
result of the `k`-th (1-based) invocation of
`Promise.race([processor(item), timeout])`. -/
def processWithRetry {ρ : Type} (retryAttempts : ℕ)
    (outcome : ℕ → Except JsError ρ) : Except (Option JsError) ρ × ℕ :=
  retryLoop outcome 1 retryAttempts none 0

/-- Element type of the array returned by
`BatchOptimizer.processBatchConcurrently`: `{ success: boolean; data?: R;
item: T; error?: string }`.  `data = none` models the JS value
`undefined`, whether the field was omitted or the processor resolved with
`undefined`; this matches the only read of the field, the check
`result.data !== undefined` in `executeBatch`. -/
structure ItemOutcome (T R : Type) where
  success : Bool
  data : Option R
  item : T
  error : Option String
deriving Repr, DecidableEq

/-- Per-item body of `BatchOptimizer.processBatchConcurrently`
(`src/utils/batchOptimizer.ts:221-236`): run `processWithRetry`; on
success wrap the data, on a caught `JsError` record
`error.message || '处理失败'`; if the caught value is `undefined`
(the `retryAttempts = 0` case), evaluating `error.message` itself throws
a `TypeError`, which escapes the `catch` block and rejects this item's
promise.  Semaphore acquire/release only schedules and is modelled
separately (`SemState` below). -/
def processItem {T R : Type} (retryAttempts : ℕ) (item : T)
    (outcome : ℕ → Except JsError (Option R)) :
    Except JsError (ItemOutcome T R) :=
  match (processWithRetry retryAttempts outcome).1 with
  | .ok v => .ok { success := true, data := v, item := item, error := none }
  | .error (some e) =>
      .ok { success := false, data := none, item := item,
            error := some (jsOrElse e.message "处理失败") }
  | .error none => .error undefinedMessageTypeError

/-- Model of `BatchOptimizer.processBatchConcurrently`
(`src/utils/batchOptimizer.ts:214-239`): every item of the chunk is
processed (concurrently, bounded by the semaphore — the bound affects
only scheduling); `Promise.all` yields the outcomes in input order, or
rejects if any item's promise rejects. -/
def processBatchConcurrently {T R : Type} (retryAttempts : ℕ)
    (batch : List T) (processor : T → ℕ → Except JsError (Option R)) :
    Except JsError (List (ItemOutcome T R)) :=
  batch.mapM (fun item => processItem retryAttempts item (processor item))

/-- Iteration of the chunking loop of `BatchOptimizer.executeBatch`
(`src/utils/batchOptimizer.ts:140-141`): `for (i = 0; i < items.length;
i += batchSize) { batch = items.slice(i, i + batchSize) }`, with `fuel`
bounding the number of loop iterations still possible (for
`batchSize ≥ 1` the loop runs at most `items.length` times; for
`batchSize = 0` the source loop diverges, and the model cuts off — every
theorem about chunking assumes `1 ≤ batchSize`). -/
def chunkGo {T : Type} (B : ℕ) : ℕ → List T → List (List T)
  | _, [] => []
  | 0, _ :: _ => []
  | fuel + 1, x :: xs =>
      (x :: xs).take B :: chunkGo B fuel ((x :: xs).drop B)

/-- The chunk list produced by the loop of `executeBatch` on `items`. -/
def chunkList {T : Type} (B : ℕ) (items : List T) : List (List T) :=
  chunkGo B items.length items

/-- Value-relevant part of the `BatchResult<R>` built by `executeBatch`
(`src/utils/batchOptimizer.ts:35-45,194-200`).  `executionTime` and
`memoryUsage` are wall-clock / heap samples and are not modelled. -/
structure BatchResult (T R : Type) where
  success : List R
  failed : List (T × String)
  totalProcessed : ℕ
deriving Repr, DecidableEq

/-- Aggregation step of `executeBatch` (`src/utils/batchOptimizer.ts:161-167`):
`if (result.success && result.data !== undefined) results.push(result.data)
else failures.push({ item: result.item, error: result.error || '处理失败' })`. -/
def classifyOutcome {T R : Type} (acc : List R × List (T × String))
    (result : ItemOutcome T R) : List R × List (T × String) :=
  match result.success, result.data with
  | true, some v => (acc.1 ++ [v], acc.2)
  | _, _ => (acc.1, acc.2 ++ [(result.item, jsOrElse result.error "处理失败")])

/-- Model of `BatchOptimizer.executeBatch`
(`src/utils/batchOptimizer.ts:124-206`).  `processor t k` is the settled
result of the `k`-th (1-based) attempt on item `t`; a resolved value of
`none` models resolving with `undefined`.  Chunks are processed strictly
sequentially; a rejection inside a chunk is rethrown by the surrounding
`try`/`catch` and aborts the remaining chunks. -/
def executeBatch {T R : Type} (batchSize retryAttempts : ℕ) (items : List T)
    (processor : T → ℕ → Except JsError (Option R)) :
    Except JsError (BatchResult T R) :=
  ((chunkList batchSize items).mapM
      (fun batch => processBatchConcurrently retryAttempts batch processor)).map
    (fun chunkResults =>
      let agg := chunkResults.flatten.foldl classifyOutcome ([], [])
      { success := agg.1, failed := agg.2, totalProcessed := items.length })

/-- Model of the `BatchConfig` interface
(`src/utils/batchOptimizer.ts:11-18`); all fields are JS numbers, taken
here as `ℚ` because `adaptiveOptimization` performs fractional
arithmetic on them. -/
structure BatchConfig where
  batchSize : ℚ
  maxConcurrency : ℚ
  delay : ℚ
  retryAttempts : ℚ
  timeoutMs : ℚ
  memoryThreshold : ℚ
deriving Repr, DecidableEq

/-- The `DEFAULT_BATCH_CONFIG` constant (`src/utils/batchOptimizer.ts:23-30`). -/
def DEFAULT_BATCH_CONFIG : BatchConfig :=
  { batchSize := 5, maxConcurrency := 3, delay := 100,
    retryAttempts := 3, timeoutMs := 30000, memoryThreshold := 100 }

/-- Model of `BatchOptimizer.adaptiveOptimization`
(`src/utils/batchOptimizer.ts:299-324`).  Note the source has TWO
top-level `if` statements executed in sequence: the memory-pressure
adjustment, and separately an `if`/`else if` on the processing time; the
second statement reads the configuration as already mutated by the
first. -/
def adaptiveOptimization (config : BatchConfig)
    (memoryUsage processingTime : ℚ) : BatchConfig :=
  let c1 :=
    if memoryUsage > config.memoryThreshold * (8 / 10) then
      { config with
        batchSize := max 1 (⌊config.batchSize * (7 / 10)⌋ : ℚ),
        delay := min (config.delay * (3 / 2)) 1000 }
    else config
  if processingTime > 10000 then
    { c1 with maxConcurrency := max 1 (c1.maxConcurrency - 1) }
  else if processingTime < 2000 ∧ memoryUsage < c1.memoryThreshold * (1 / 2) then
    { c1 with
      maxConcurrency := min 5 (c1.maxConcurrency + 1),
      batchSize := min 10 (c1.batchSize + 1) }
  else c1

/-- State of the `Semaphore` class (`src/utils/batchOptimizer.ts:330-357`),
instrumented with `active`, the number of `acquire()` calls that have
completed and are not yet matched by a `release()` (waiters in the queue
are suspended inside `acquire` and are not active).  Waiters are
identified by a caller id. -/
structure SemState where
  permits : ℕ
  waitQueue : List ℕ
  active : ℕ
deriving Repr, DecidableEq

/-- Model of `Semaphore.acquire` (`src/utils/batchOptimizer.ts:338-347`):
with a free permit the caller proceeds at once; otherwise its
continuation is pushed on the back of `waitQueue` and the caller
suspends. -/
def semAcquire (s : SemState) (caller : ℕ) : SemState :=
  if 0 < s.permits then
    { s with permits := s.permits - 1, active := s.active + 1 }
  else
    { s with waitQueue := s.waitQueue ++ [caller] }

/-- Model of `Semaphore.release` (`src/utils/batchOptimizer.ts:349-356`),
performed by an active holder: if the queue is non-empty, `shift()` the
front continuation and resolve it (that waiter's `acquire` completes, so
it becomes active in place of the releaser and the permit counter is not
touched); otherwise increment `permits`. -/
def semRelease (s : SemState) : SemState :=
  match s.waitQueue with
  | _ :: rest => { permits := s.permits, waitQueue := rest, active := s.active }
  | [] => { permits := s.permits + 1, waitQueue := [], active := s.active - 1 }

/-- One step of semaphore usage as the engine performs it
(`src/utils/batchOptimizer.ts:221-236`): any caller may start an
`acquire`; a `release` is executed in a `finally` block by a caller whose
`acquire` has completed, hence only when at least one acquisition is
active. -/
inductive SemStep : SemState → SemState → Prop
  | acq (caller : ℕ) (s : SemState) : SemStep s (semAcquire s caller)
  | rel (s : SemState) (h : 0 < s.active) : SemStep s (semRelease s)

/-- The fresh semaphore `new Semaphore(permits)`
(`src/utils/batchOptimizer.ts:334-336`). -/
def semInit (permits : ℕ) : SemState :=
  { permits := permits, waitQueue := [], active := 0 }

/-- States reachable from a fresh semaphore by any sequence of
well-bracketed `acquire` / `release` steps. -/
def SemReachable (permits : ℕ) (s : SemState) : Prop :=
  Relation.ReflTransGen SemStep (semInit permits) s

/-- Lower-casing as performed by JS `String.prototype.toLowerCase` on the
ASCII strings involved (`src/utils/retry.ts:111-118`). -/
def jsLower (s : String) : String :=
  ⟨s.data.map Char.toLower⟩

/-- Character-list test used to model `String.prototype.includes`: does
the list start with the given pattern? -/
def listStartsWith : List Char → List Char → Bool
  | _, [] => true
  | [], _ :: _ => false
  | c :: cs, d :: ds => c = d && listStartsWith cs ds

/-- Character-list substring test (pattern occurs contiguously). -/
def listContainsSub : List Char → List Char → Bool
  | [], pat => pat.isEmpty
  | c :: cs, pat => listStartsWith (c :: cs) pat || listContainsSub cs pat

/-- Model of JS `haystack.includes(pattern)` (substring containment). -/
def jsIncludes (haystack pat : String) : Bool :=
  listContainsSub haystack.data pat.data

/-- Model of a JS `Error` as consumed by `RetryManager.isRetryableError`
(`src/utils/retry.ts:110-120`): `message` and `name` are strings (every
`Error` instance carries both), `code` is an optional string property. -/
structure ErrorInfo where
  message : String
  name : String
  code : Option String
deriving Repr, DecidableEq

/-- Model of `RetryManager.isRetryableError` (`src/utils/retry.ts:110-120`):
some matcher is a case-insensitive substring of the message, or strictly
equals the `code`, or is a case-insensitive substring of the name. -/
def isRetryableError (error : ErrorInfo) (retryableErrors : List String) : Bool :=
  retryableErrors.any fun retryableError =>
    jsIncludes (jsLower error.message) (jsLower retryableError)
    || error.code == some retryableError
    || jsIncludes (jsLower error.name) (jsLower retryableError)

/-- The `retryableErrors` list of the default `RetryConfig`
(`src/utils/retry.ts:32-39`). -/
def defaultRetryableErrors : List String :=
  ["ECONNREFUSED", "ENOTFOUND", "ETIMEDOUT", "ECONNRESET",
   "Network Error", "timeout"]

/-- Model of the `RetryStats` record (`src/utils/retry.ts:12-17`);
`averageAttempts` is a JS number holding a quotient, taken as `ℚ`. -/
structure RetryStats where
  totalAttempts : ℕ
  successfulRetries : ℕ
  failedRetries : ℕ
  averageAttempts : ℚ
deriving Repr, DecidableEq

/-- Model of `RetryManager.updateAverageAttempts`
(`src/utils/retry.ts:159-164`). -/
def updateAverageAttempts (stats : RetryStats) : RetryStats :=
  let totalOperations := stats.successfulRetries + stats.failedRetries
  if 0 < totalOperations then
    { stats with
      averageAttempts := (stats.totalAttempts : ℚ) / (totalOperations : ℚ) }
  else stats

/-- How one `withRetry` invocation completes: a resolved value, an
immediately rethrown non-retryable error, or the last error after the
retry budget is exhausted. -/
inductive RetryOutcome (V : Type) where
  | success (v : V)
  | nonRetryable (e : ErrorInfo)
  | exhausted (e : ErrorInfo)
deriving Repr, DecidableEq

/-- Loop of `RetryManager.withRetry` (`src/utils/retry.ts:53-101`).
`attempt` is the source's 0-based attempt counter, `left` is
`maxRetries - attempt` (the loop guard `attempt <= maxRetries` holds on
entry), `invocations` counts operation invocations (instrumentation).
Each iteration increments `totalAttempts`, invokes the operation, and on
failure either rethrows (non-retryable, no stats recompute), records
exhaustion (`failedRetries` increment then average recompute, matching
the `break` to line 103), or sleeps and retries.  The backoff sleep and
`onRetry` callback do not affect state and are not modelled. -/
def retryRun {V : Type} (operation : ℕ → Except ErrorInfo V)
    (retryableErrors : List String) (attempt left : ℕ) (stats : RetryStats)
    (invocations : ℕ) : RetryOutcome V × RetryStats × ℕ :=
  let stats := { stats with totalAttempts := stats.totalAttempts + 1 }
  let invocations := invocations + 1
  match operation attempt with
  | .ok v =>
      let stats :=
        if 0 < attempt then
          { stats with successfulRetries := stats.successfulRetries + 1 }
        else stats
      (.success v, updateAverageAttempts stats, invocations)
  | .error e =>
      if isRetryableError e retryableErrors then
        match left with
        | 0 =>
            let stats := { stats with failedRetries := stats.failedRetries + 1 }
            (.exhausted e, updateAverageAttempts stats, invocations)
        | l + 1 => retryRun operation retryableErrors (attempt + 1) l stats invocations
      else (.nonRetryable e, stats, invocations)

/-- Model of `RetryManager.withRetry` (`src/utils/retry.ts:45-105`).
`operation k` is the settled result of its `k`-th (0-based) invocation;
`maxRetries` is taken as `ℕ` (the spec's domain `maxRetries ≥ 0`).
Returns the completion, the updated process-wide stats, and the number
of operation invocations. -/
def withRetry {V : Type} (operation : ℕ → Except ErrorInfo V)
    (retryableErrors : List String) (maxRetries : ℕ) (stats : RetryStats) :
    RetryOutcome V × RetryStats × ℕ :=
  retryRun operation retryableErrors 0 maxRetries stats 0

/-- The backoff strategies of `RetryConfig` (`src/utils/retry.ts:5`). -/
inductive BackoffStrategy where
  | linear
  | exponential
  | fixed
deriving Repr, DecidableEq

/-- Pre-jitter delay of `RetryManager.calculateDelay`
(`src/utils/retry.ts:128-139`): the `switch` on the strategy. -/
def baseDelayFor (strategy : BackoffStrategy) (baseDelay : ℚ) (attempt : ℕ) : ℚ :=
  match strategy with
  | .linear => baseDelay * (attempt + 1)
  | .exponential => baseDelay * 2 ^ attempt
  | .fixed => baseDelay

/-- Model of `RetryManager.calculateDelay` (`src/utils/retry.ts:125-147`).
`rand` is the value drawn from `Math.random()` (so `0 ≤ rand < 1`):
`jitter = rand * 0.1 * delay; delay += jitter; return min(delay,
maxDelay)`. -/
def calculateDelay (strategy : BackoffStrategy) (baseDelay maxDelay : ℚ)
    (attempt : ℕ) (rand : ℚ) : ℚ :=
  let delay := baseDelayFor strategy baseDelay attempt
  let jitter := rand * (1 / 10) * delay
  min (delay + jitter) maxDelay

/-! ### Chunking lemmas -/

theorem chunkGo_congr {T : Type} (B : ℕ) (hB : 1 ≤ B) :
    ∀ (f₁ f₂ : ℕ) (l : List T), l.length ≤ f₁ → l.length ≤ f₂ →
      chunkGo B f₁ l = chunkGo B f₂ l
  | f₁, f₂, [], _, _ => by cases f₁ <;> cases f₂ <;> rfl
  | 0, _, x :: xs, h₁, _ => absurd h₁ (by simp)
  | _ + 1, 0, x :: xs, _, h₂ => absurd h₂ (by simp)
  | f₁ + 1, f₂ + 1, x :: xs, h₁, h₂ => by
      simp only [chunkGo]
      congr 1
      exact chunkGo_congr B hB f₁ f₂ ((x :: xs).drop B)
        (by simp only [List.length_drop, List.length_cons] at *; omega)
        (by simp only [List.length_drop, List.length_cons] at *; omega)

theorem chunkList_nil {T : Type} (B : ℕ) : chunkList B ([] : List T) = [] := rfl

theorem chunkList_cons {T : Type} (B : ℕ) (hB : 1 ≤ B) (x : T) (xs : List T) :
    chunkList B (x :: xs) =
      (x :: xs).take B :: chunkList B ((x :: xs).drop B) := by
  show chunkGo B (x :: xs).length (x :: xs) = _
  simp only [List.length_cons, chunkGo]
  congr 1
  exact chunkGo_congr B hB xs.length ((x :: xs).drop B).length ((x :: xs).drop B)
    (by simp only [List.length_drop, List.length_cons]; omega) le_rfl

theorem chunkList_ne_nil {T : Type} (B : ℕ) (hB : 1 ≤ B) (x : T) (xs : List T) :
    chunkList B (x :: xs) ≠ [] := by
  rw [chunkList_cons B hB]
  simp

theorem chunkList_flatten {T : Type} (B : ℕ) (hB : 1 ≤ B) :
    ∀ items : List T, (chunkList B items).flatten = items
  | [] => by rw [chunkList_nil]; rfl
  | x :: xs => by
      rw [chunkList_cons B hB, List.flatten_cons,
        chunkList_flatten B hB ((x :: xs).drop B)]
      exact List.take_append_drop B (x :: xs)
termination_by items => items.length
decreasing_by simp only [List.length_drop, List.length_cons]; omega

theorem chunkList_length {T : Type} (B : ℕ) (hB : 1 ≤ B) :
    ∀ items : List T, (chunkList B items).length = (items.length + B - 1) / B
  | [] => by
      rw [chunkList_nil]
      have : (([] : List T).length + B - 1) / B = 0 := Nat.div_eq_of_lt (by simp; omega)
      rw [this]
      rfl
  | x :: xs => by
      rw [chunkList_cons B hB, List.length_cons,
        chunkList_length B hB ((x :: xs).drop B)]
      simp only [List.length_drop, List.length_cons]
      rcases le_or_lt (xs.length + 1) B with h | h
      · have h1 : xs.length + 1 - B = 0 := by omega
        rw [h1]
        have h2 : (0 + B - 1) / B = 0 := Nat.div_eq_of_lt (by omega)
        rw [h2]
        have h3 : xs.length + 1 + B - 1 = xs.length + B := by omega
        rw [h3, Nat.add_div_right _ (by omega : 0 < B),
          Nat.div_eq_of_lt (by omega : xs.length < B)]
      · have h1 : xs.length + 1 - B + B - 1 = xs.length := by omega
        have h2 : xs.length + 1 + B - 1 = xs.length + B := by omega
        rw [h1, h2, Nat.add_div_right _ (by omega : 0 < B)]
termination_by items => items.length
decreasing_by simp only [List.length_drop, List.length_cons]; omega

theorem chunkList_dropLast_length {T : Type} (B : ℕ) (hB : 1 ≤ B) :
    ∀ items : List T, ∀ c ∈ (chunkList B items).dropLast, c.length = B
  | [] => by rw [chunkList_nil]; intro c hc; simp at hc
  | x :: xs => by
      have hrec := chunkList_dropLast_length B hB ((x :: xs).drop B)
      rw [chunkList_cons B hB]
      rcases hd : (x :: xs).drop B with - | ⟨y, ys⟩
      · rw [chunkList_nil]
        intro c hc; simp at hc
      · have hlen : xs.length + 1 - B = ys.length + 1 := by
          have := congrArg List.length hd
          simpa using this
        rw [hd] at hrec
        rw [List.dropLast_cons_of_ne_nil (chunkList_ne_nil B hB y ys)]
        intro c hc
        rcases List.mem_cons.mp hc with rfl | hc
        · rw [List.length_take, List.length_cons]
          exact inf_eq_left.mpr (by omega)
        · exact hrec c hc
termination_by items => items.length
decreasing_by simp only [List.length_drop, List.length_cons]; omega

theorem chunkList_getLast_length {T : Type} (B : ℕ) (hB : 1 ≤ B) :
    ∀ items : List T, items ≠ [] →
      ((chunkList B items).getLast?).map List.length
        = some (if items.length % B = 0 then B else items.length % B)
  | [], h => absurd rfl h
  | x :: xs, _ => by
      have hrec := chunkList_getLast_length B hB ((x :: xs).drop B)
      rw [chunkList_cons B hB]
      rcases hd : (x :: xs).drop B with - | ⟨y, ys⟩
      · have hlen : xs.length + 1 - B = 0 := by
          have := congrArg List.length hd
          simpa using this
        rw [chunkList_nil]
        simp only [List.getLast?_singleton, Option.map_some', List.length_take,
          List.length_cons]
        have hm : xs.length + 1 ≤ B := by omega
        rw [inf_eq_right.mpr hm]
        rcases eq_or_lt_of_le hm with heq | hlt
        · rw [heq, Nat.mod_self, if_pos rfl]
        · rw [Nat.mod_eq_of_lt hlt, if_neg (by omega)]
      · have hlen : xs.length + 1 - B = ys.length + 1 := by
          have := congrArg List.length hd
          simpa using this
        rw [hd] at hrec
        have hne := chunkList_ne_nil B hB y ys
        rcases hcl : chunkList B (y :: ys) with - | ⟨c, cs⟩
        · exact absurd hcl hne
        rw [List.getLast?_cons_cons, ← hcl, hrec (by simp)]
        have hmod : (xs.length + 1) % B = (ys.length + 1) % B := by
          rw [Nat.mod_eq_sub_mod (by omega : B ≤ xs.length + 1), hlen]
        simp only [List.length_cons, hmod]
termination_by items => items.length
decreasing_by simp only [List.length_drop, List.length_cons]; omega

/-- C7: for every item list of length `N ≥ 1` and `batchSize = B ≥ 1`,
the chunking loop of `executeBatch` partitions `items` into `⌈N/B⌉`
consecutive chunks in input order (their concatenation is `items`), each
of size `B` except the final chunk, whose size is `N mod B` when `B` does
not divide `N` and `B` otherwise. -/
theorem executeBatch_chunk_partition {T : Type} (B : ℕ) (items : List T)
    (hB : 1 ≤ B) (hN : 1 ≤ items.length) :
    (chunkList B items).flatten = items
    ∧ (chunkList B items).length = items.length ⌈/⌉ B
    ∧ (∀ c ∈ (chunkList B items).dropLast, c.length = B)
    ∧ ((chunkList B items).getLast?).map List.length
        = some (if items.length % B = 0 then B else items.length % B) := by
  refine ⟨chunkList_flatten B hB items, ?_, chunkList_dropLast_length B hB items,
    chunkList_getLast_length B hB items (by cases items <;> simp_all)⟩
  rw [Nat.ceilDiv_eq_add_pred_div]
  exact chunkList_length B hB items

/-- Witness for C7 at the spec's Scenario A shape: items `[1..7]`,
`batchSize = 3` gives chunks `[1,2,3], [4,5,6], [7]`. -/
theorem executeBatch_chunk_partition_witness :
    ((chunkList 3 [1, 2, 3, 4, 5, 6, 7]).flatten = [1, 2, 3, 4, 5, 6, 7]
      ∧ (chunkList 3 [1, 2, 3, 4, 5, 6, 7]).length = ([1, 2, 3, 4, 5, 6, 7] : List ℕ).length ⌈/⌉ 3
      ∧ (∀ c ∈ (chunkList 3 [1, 2, 3, 4, 5, 6, 7]).dropLast, c.length = 3)
      ∧ ((chunkList 3 [1, 2, 3, 4, 5, 6, 7]).getLast?).map List.length
          = some (if ([1, 2, 3, 4, 5, 6, 7] : List ℕ).length % 3 = 0 then 3
                  else ([1, 2, 3, 4, 5, 6, 7] : List ℕ).length % 3))
    ∧ chunkList 3 [1, 2, 3, 4, 5, 6, 7] = [[1, 2, 3], [4, 5, 6], [7]] :=
  ⟨executeBatch_chunk_partition 3 [1, 2, 3, 4, 5, 6, 7] (by decide) (by decide),
   by decide⟩

/-! ### Per-item retry-loop lemmas -/

theorem retryLoop_ne_error_none {ρ : Type} (outcome : ℕ → Except JsError ρ) :
    ∀ (r attempt invocations : ℕ) (lastError : Option JsError),
      (lastError = none → 1 ≤ r) →
      (retryLoop outcome attempt r lastError invocations).1 ≠ .error none
  | 0, a, c, lastError, h => by
      cases lastError with
      | none => exact absurd (h rfl) (by omega)
      | some e => simp [retryLoop]
  | r + 1, a, c, lastError, _ => by
      simp only [retryLoop]
      cases houtcome : outcome a with
      | ok v => simp
      | error e =>
          exact retryLoop_ne_error_none outcome r (a + 1) (c + 1) (some e)
            (by intro hcon; cases hcon)

theorem processWithRetry_ne_error_none {ρ : Type} (n : ℕ) (hn : 1 ≤ n)
    (outcome : ℕ → Except JsError ρ) :
    (processWithRetry n outcome).1 ≠ .error none :=
  retryLoop_ne_error_none outcome n 1 0 none (fun _ => hn)

theorem retryLoop_invocations_le {ρ : Type} (outcome : ℕ → Except JsError ρ) :
    ∀ (r attempt invocations : ℕ) (lastError : Option JsError),
      (retryLoop outcome attempt r lastError invocations).2 ≤ invocations + r
  | 0, a, c, lastError => by simp [retryLoop]
  | r + 1, a, c, lastError => by
      simp only [retryLoop]
      cases houtcome : outcome a with
      | ok v => simp
      | error e =>
          have h' := retryLoop_invocations_le outcome r (a + 1) (c + 1) (some e)
          show (retryLoop outcome (a + 1) r (some e) (c + 1)).2 ≤ c + (r + 1)
          omega

theorem retryLoop_const_error {ρ : Type} (e : JsError)
    (outcome : ℕ → Except JsError ρ) (hout : ∀ k, outcome k = .error e) :
    ∀ (r attempt invocations : ℕ) (lastError : Option JsError), 1 ≤ r →
      retryLoop outcome attempt r lastError invocations
        = (.error (some e), invocations + r)
  | 0, a, c, lastError, h => absurd h (by omega)
  | r + 1, a, c, lastError, _ => by
      simp only [retryLoop, hout a]
      cases r with
      | zero => simp [retryLoop]
      | succ r' =>
          rw [retryLoop_const_error e outcome hout (r' + 1) (a + 1) (c + 1)
            (some e) (by omega)]
          congr 1
          omega

/-! ### Whole-batch evaluation -/

/-- Derived description of the per-item record produced by
`processBatchConcurrently` (equal to what `processItem` wraps in `.ok`
whenever `retryAttempts ≥ 1`; the `.error none` clause is junk, proved
unreachable in that case). -/
def itemRecord {T R : Type} (n : ℕ) (t : T)
    (out : ℕ → Except JsError (Option R)) : ItemOutcome T R :=
  match (processWithRetry n out).1 with
  | .ok v => { success := true, data := v, item := t, error := none }
  | .error (some e) =>
      { success := false, data := none, item := t,
        error := some (jsOrElse e.message "处理失败") }
  | .error none => { success := false, data := none, item := t, error := none }

theorem processItem_eq_ok {T R : Type} (n : ℕ) (hn : 1 ≤ n) (t : T)
    (out : ℕ → Except JsError (Option R)) :
    processItem n t out = .ok (itemRecord n t out) := by
  have hne := processWithRetry_ne_error_none n hn out
  unfold processItem itemRecord
  cases h : (processWithRetry n out).1 with
  | ok v => rfl
  | error eOpt =>
      cases eOpt with
      | none => exact absurd h hne
      | some e => rfl

theorem mapM_ok_of_forall {T E A : Type} (f : T → Except E A) (g : T → A) :
    ∀ l : List T, (∀ t ∈ l, f t = .ok (g t)) → l.mapM f = .ok (l.map g)
  | [], _ => rfl
  | x :: xs, h => by
      rw [List.mapM_cons, h x (by simp),
        mapM_ok_of_forall f g xs (fun t ht => h t (by simp [ht]))]
      rfl

/-- Success component selected from one `ItemOutcome` by the aggregation
step of `executeBatch`. -/
def successPart {T R : Type} (o : ItemOutcome T R) : Option R :=
  match o.success, o.data with
  | true, some v => some v
  | _, _ => none

/-- Failure component selected from one `ItemOutcome` by the aggregation
step of `executeBatch`. -/
def failurePart {T R : Type} (o : ItemOutcome T R) : Option (T × String) :=
  match o.success, o.data with
  | true, some _ => none
  | _, _ => some (o.item, jsOrElse o.error "处理失败")

theorem foldl_classifyOutcome {T R : Type} (l : List (ItemOutcome T R)) :
    ∀ (s : List R) (f : List (T × String)),
      l.foldl classifyOutcome (s, f)
        = (s ++ l.filterMap successPart, f ++ l.filterMap failurePart) := by
  induction l with
  | nil => intro s f; simp
  | cons o l ih =>
      intro s f
      obtain ⟨su, da, it, er⟩ := o
      rw [List.foldl_cons]
      cases su <;> rcases da with - | v
      · rw [show classifyOutcome (s, f) ⟨false, none, it, er⟩
            = (s, f ++ [(it, jsOrElse er "处理失败")]) from rfl, ih]
        simp [successPart, failurePart, List.filterMap_cons]
      · rw [show classifyOutcome (s, f) ⟨false, some v, it, er⟩
            = (s, f ++ [(it, jsOrElse er "处理失败")]) from rfl, ih]
        simp [successPart, failurePart, List.filterMap_cons]
      · rw [show classifyOutcome (s, f) ⟨true, none, it, er⟩
            = (s, f ++ [(it, jsOrElse er "处理失败")]) from rfl, ih]
        simp [successPart, failurePart, List.filterMap_cons]
      · rw [show classifyOutcome (s, f) ⟨true, some v, it, er⟩
            = (s ++ [v], f) from rfl, ih]
        simp [successPart, failurePart, List.filterMap_cons]

theorem flatten_map_map {A B' : Type} (h : A → B') (L : List (List A)) :
    (L.map (List.map h)).flatten = L.flatten.map h := by
  induction L with
  | nil => rfl
  | cons l L ih =>
      rw [List.map_cons, List.flatten_cons, List.flatten_cons, List.map_append, ih]

/-- Value that `executeBatch` records in `success` for one item (defined
from the settled retry result; `none` = the item is not recorded there). -/
def itemSuccess {R : Type} (n : ℕ) (out : ℕ → Except JsError (Option R)) :
    Option R :=
  match (processWithRetry n out).1 with
  | .ok (some v) => some v
  | _ => none

/-- Error message that `executeBatch` records in `failed` for one item
(`none` = the item is not recorded there). -/
def itemFailure {R : Type} (n : ℕ) (out : ℕ → Except JsError (Option R)) :
    Option String :=
  match (processWithRetry n out).1 with
  | .ok (some _) => none
  | .ok none => some "处理失败"
  | .error (some e) => some (jsOrElse e.message "处理失败")
  | .error none => none

theorem jsOrElse_ne_empty (o : Option String) (d : String) (hd : d ≠ "") :
    jsOrElse o d ≠ "" := by
  cases o with
  | none => exact hd
  | some s =>
      show (if s = "" then d else s) ≠ ""
      split_ifs with hs
      · exact hd
      · exact hs

theorem jsOrElse_some_of_ne (s d : String) (hs : s ≠ "") :
    jsOrElse (some s) d = s := by
  show (if s = "" then d else s) = s
  rw [if_neg hs]

theorem successPart_itemRecord {T R : Type} (n : ℕ) (t : T)
    (out : ℕ → Except JsError (Option R)) :
    successPart (itemRecord n t out) = itemSuccess n out := by
  unfold successPart itemRecord itemSuccess
  cases h : (processWithRetry n out).1 with
  | ok v => rcases v with - | v <;> rfl
  | error eOpt => rcases eOpt with - | e <;> rfl

theorem failurePart_itemRecord {T R : Type} (n : ℕ) (hn : 1 ≤ n) (t : T)
    (out : ℕ → Except JsError (Option R)) :
    failurePart (itemRecord n t out)
      = (itemFailure n out).map (fun m => (t, m)) := by
  have hne := processWithRetry_ne_error_none n hn out
  unfold failurePart itemRecord itemFailure
  cases h : (processWithRetry n out).1 with
  | ok v => rcases v with - | v <;> rfl
  | error eOpt =>
      cases eOpt with
      | none => exact absurd h hne
      | some e =>
          show some (t, jsOrElse (some (jsOrElse e.message "处理失败")) "处理失败")
            = some (t, jsOrElse e.message "处理失败")
          rw [jsOrElse_some_of_ne _ _ (jsOrElse_ne_empty _ _ (by decide))]

theorem executeBatch_eq_ok {T R : Type} (B n : ℕ) (hB : 1 ≤ B) (hn : 1 ≤ n)
    (items : List T) (proc : T → ℕ → Except JsError (Option R)) :
    executeBatch B n items proc = .ok
      { success := items.filterMap (fun t => itemSuccess n (proc t)),
        failed := items.filterMap
          (fun t => (itemFailure n (proc t)).map (fun m => (t, m))),
        totalProcessed := items.length } := by
  unfold executeBatch
  rw [mapM_ok_of_forall (fun batch => processBatchConcurrently n batch proc)
      (fun batch => batch.map (fun t => itemRecord n t (proc t))) (chunkList B items)
      (fun b _ => mapM_ok_of_forall _ _ b
        (fun t _ => processItem_eq_ok n hn t (proc t)))]
  show Except.ok _ = Except.ok _
  congr 1
  dsimp only
  rw [flatten_map_map, chunkList_flatten B hB items, foldl_classifyOutcome]
  rw [List.filterMap_map, List.filterMap_map]
  have hs : (successPart ∘ fun t => itemRecord n t (proc t))
      = fun t => itemSuccess n (proc t) :=
    funext fun t => successPart_itemRecord n t (proc t)
  have hf : (failurePart ∘ fun t => itemRecord n t (proc t))
      = fun t => (itemFailure n (proc t)).map (fun m => (t, m)) :=
    funext fun t => failurePart_itemRecord n hn t (proc t)
  rw [hs, hf]
  simp

/-! ### Claims about executeBatch -/

theorem length_filterMap_pair {T A A' : Type} (f : T → Option A)
    (g : T → Option A') (h : ∀ t, (f t).isSome ↔ g t = none) (l : List T) :
    (l.filterMap f).length + (l.filterMap g).length = l.length := by
  induction l with
  | nil => rfl
  | cons x xs ih =>
      rcases hf : f x with - | a <;> rcases hgx : g x with - | b
      · have hcon := (h x).mpr hgx
        rw [hf] at hcon
        simp at hcon
      · rw [List.filterMap_cons_none hf, List.filterMap_cons_some hgx,
          List.length_cons, List.length_cons]
        omega
      · rw [List.filterMap_cons_some hf, List.filterMap_cons_none hgx,
          List.length_cons, List.length_cons]
        omega
      · have hcon := (h x).mp (by rw [hf]; simp)
        rw [hgx] at hcon
        simp at hcon

/-- C1: for every input list `items` of length `N`, every processor and
every valid configuration (`batchSize ≥ 1`; `retryAttempts ≥ 1`, see C9
for `retryAttempts = 0`), `executeBatch` returns a `BatchResult` with
`totalProcessed = N` and `success.length + failed.length = N`, regardless
of which items succeed or fail. -/
theorem executeBatch_totals {T R : Type} (B n : ℕ) (hB : 1 ≤ B) (hn : 1 ≤ n)
    (items : List T) (proc : T → ℕ → Except JsError (Option R)) :
    ∃ r : BatchResult T R, executeBatch B n items proc = .ok r
      ∧ r.totalProcessed = items.length
      ∧ r.success.length + r.failed.length = items.length := by
  refine ⟨_, executeBatch_eq_ok B n hB hn items proc, rfl, ?_⟩
  apply length_filterMap_pair
  intro t
  have hne := processWithRetry_ne_error_none n hn (proc t)
  unfold itemSuccess itemFailure
  cases h : (processWithRetry n (proc t)).1 with
  | ok v => rcases v with - | v <;> simp
  | error eOpt =>
      cases eOpt with
      | none => exact absurd h hne
      | some e => simp

/-- Witness for C1: three items, the middle one always failing. -/
theorem executeBatch_totals_witness :
    (1 : ℕ) ≤ 5 ∧ (1 : ℕ) ≤ 3 ∧
    ∃ r : BatchResult ℕ ℕ,
      executeBatch 5 3 [1, 2, 3]
          (fun t _ => if t = 2 then .error ⟨some "boom"⟩ else .ok (some (t * 10)))
        = .ok r
      ∧ r.totalProcessed = ([1, 2, 3] : List ℕ).length
      ∧ r.success.length + r.failed.length = ([1, 2, 3] : List ℕ).length :=
  ⟨by decide, by decide,
    executeBatch_totals 5 3 (by decide) (by decide) [1, 2, 3]
      (fun t _ => if t = 2 then .error ⟨some "boom"⟩ else .ok (some (t * 10)))⟩

/-- C2 counterexample: `"ValidationError"` matches none of the default
retryable matchers, yet the batch per-item path retries it: with the
default `retryAttempts = 3`, the processor is invoked 3 times, not once —
`BatchOptimizer.processWithRetry` performs no retryability
classification, so a non-retryable error does consume the retry budget. -/
theorem batch_retries_nonretryable_cex :
    isRetryableError ⟨"ValidationError", "Error", none⟩ defaultRetryableErrors
        = false
    ∧ (processWithRetry 3 (fun _ =>
        (Except.error ⟨some "ValidationError"⟩ : Except JsError (Option ℕ)))).2 = 3
    ∧ ¬ (processWithRetry 3 (fun _ =>
        (Except.error ⟨some "ValidationError"⟩ : Except JsError (Option ℕ)))).2 ≤ 1 :=
  ⟨by decide, by decide, by decide⟩

/-- C2 (amended): the batch per-item path performs no retryability
classification: an item whose processor invocations all throw — whether
or not the error matches the retryable matchers — is retried until the
full budget of `retryAttempts` invocations is consumed; after the last
failure `executeBatch` records `{item, last error message}` in `failed`
and continues processing the remaining items and chunks. -/
theorem executeBatch_failing_item_consumes_budget {T R : Type} (B n : ℕ)
    (hB : 1 ≤ B) (hn : 1 ≤ n) (items : List T)
    (proc : T → ℕ → Except JsError (Option R)) (bad : T) (e : JsError)
    (hmem : bad ∈ items) (hfail : ∀ k, proc bad k = .error e) :
    (processWithRetry n (proc bad)).2 = n
    ∧ ∃ r : BatchResult T R, executeBatch B n items proc = .ok r
        ∧ (bad, jsOrElse e.message "处理失败") ∈ r.failed
        ∧ r.totalProcessed = items.length := by
  have hrun : processWithRetry n (proc bad) = (.error (some e), 0 + n) :=
    retryLoop_const_error e (proc bad) hfail n 1 0 none hn
  refine ⟨by rw [hrun]; omega,
    _, executeBatch_eq_ok B n hB hn items proc, ?_, rfl⟩
  apply List.mem_filterMap.mpr
  refine ⟨bad, hmem, ?_⟩
  unfold itemFailure
  rw [hrun]
  rfl

/-- Witness for C2 (amended): item 2 always fails with a non-retryable
error, item 1 succeeds. -/
theorem executeBatch_failing_item_consumes_budget_witness :
    (1 : ℕ) ≤ 5 ∧ (1 : ℕ) ≤ 3 ∧ (2 : ℕ) ∈ [1, 2] ∧
    ((processWithRetry 3 (fun _ =>
        (if (2 : ℕ) = 2 then .error ⟨some "ValidationError"⟩
         else .ok (some 0) : Except JsError (Option ℕ)))).2 = 3
      ∧ ∃ r : BatchResult ℕ ℕ,
          executeBatch 5 3 [1, 2]
              (fun t _ => if t = 2 then .error ⟨some "ValidationError"⟩
                          else .ok (some 0))
            = .ok r
          ∧ ((2 : ℕ), jsOrElse (some "ValidationError") "处理失败") ∈ r.failed
          ∧ r.totalProcessed = ([1, 2] : List ℕ).length) :=
  ⟨by decide, by decide, by decide,
    executeBatch_failing_item_consumes_budget 5 3 (by decide) (by decide) [1, 2]
      (fun t _ => if t = 2 then .error ⟨some "ValidationError"⟩ else .ok (some 0))
      2 ⟨some "ValidationError"⟩ (by decide) (fun _ => rfl)⟩

/-- C9 counterexample: with `retryAttempts = 0` the processor is indeed
never invoked, but no item is recorded in `failed`: `processWithRetry`
throws its never-assigned `lastError` (the JS value `undefined`), the
`catch` handler's `error.message` read raises a `TypeError`, and
`executeBatch` rejects instead of returning a `BatchResult`. -/
theorem executeBatch_zero_retries_cex :
    (processWithRetry 0 (fun _ =>
        (Except.ok (some 0) : Except JsError (Option ℕ)))).2 = 0
    ∧ executeBatch 1 0 [0]
        (fun _ _ => (Except.ok (some 0) : Except JsError (Option ℕ)))
        = .error undefinedMessageTypeError :=
  ⟨rfl, rfl⟩

/-- C9 (amended): for every item the batch per-item retry path invokes
the processor at most `retryAttempts` times; when `retryAttempts = 0` the
processor is never invoked, and `executeBatch` on any non-empty item list
rejects with the `TypeError` raised by reading `.message` of the thrown
`undefined`, instead of recording the items in `failed`. -/
theorem processWithRetry_budget {T R : Type} (n : ℕ)
    (out : ℕ → Except JsError (Option R)) (B : ℕ) (items : List T)
    (proc : T → ℕ → Except JsError (Option R)) (hB : 1 ≤ B)
    (hne : items ≠ []) :
    (processWithRetry n out).2 ≤ n
    ∧ (processWithRetry 0 out).2 = 0
    ∧ executeBatch B 0 items proc = .error undefinedMessageTypeError := by
  refine ⟨by simpa using retryLoop_invocations_le out n 1 0 none, rfl, ?_⟩
  obtain ⟨x, xs, rfl⟩ : ∃ x xs, items = x :: xs := by
    cases items with
    | nil => exact absurd rfl hne
    | cons x xs => exact ⟨x, xs, rfl⟩
  obtain ⟨B', rfl⟩ : ∃ B', B = B' + 1 := ⟨B - 1, by omega⟩
  rfl

/-- Witness for C9 (amended) at `retryAttempts = 2`, one item. -/
theorem processWithRetry_budget_witness :
    (1 : ℕ) ≤ 1 ∧ ([0] : List ℕ) ≠ [] ∧
    ((processWithRetry 2 (fun _ =>
        (Except.error ⟨some "boom"⟩ : Except JsError (Option ℕ)))).2 ≤ 2
      ∧ (processWithRetry 0 (fun _ =>
          (Except.error ⟨some "boom"⟩ : Except JsError (Option ℕ)))).2 = 0
      ∧ executeBatch 1 0 [0]
          (fun _ _ => (Except.ok (some 1) : Except JsError (Option ℕ)))
          = .error undefinedMessageTypeError) :=
  ⟨by decide, by decide,
    processWithRetry_budget 2
      (fun _ => (Except.error ⟨some "boom"⟩ : Except JsError (Option ℕ)))
      1 [0] (fun _ _ => (Except.ok (some 1) : Except JsError (Option ℕ)))
      (by decide) (by decide)⟩

/-- C10: an item whose processor resolves successfully with `undefined`
is recorded in `failed` with the generic message `'处理失败'`, not in
`success`: the `success` list holds exactly the items whose settled
retry result is a defined value. -/
theorem executeBatch_undefined_counts_as_failure {T R : Type} (B n : ℕ)
    (hB : 1 ≤ B) (hn : 1 ≤ n) (items : List T)
    (proc : T → ℕ → Except JsError (Option R)) (t : T) (ht : t ∈ items)
    (hu : (processWithRetry n (proc t)).1 = .ok none) :
    ∃ r : BatchResult T R, executeBatch B n items proc = .ok r
      ∧ (t, "处理失败") ∈ r.failed
      ∧ r.success = items.filterMap (fun u => itemSuccess n (proc u)) := by
  refine ⟨_, executeBatch_eq_ok B n hB hn items proc, ?_, rfl⟩
  apply List.mem_filterMap.mpr
  refine ⟨t, ht, ?_⟩
  unfold itemFailure
  rw [hu]
  rfl

/-- Witness for C10: item 2 resolves with `undefined` on its first
attempt. -/
theorem executeBatch_undefined_counts_as_failure_witness :
    (1 : ℕ) ≤ 5 ∧ (1 : ℕ) ≤ 3 ∧ (2 : ℕ) ∈ [1, 2] ∧
    ∃ r : BatchResult ℕ ℕ,
      executeBatch 5 3 [1, 2]
          (fun t _ => if t = 2 then .ok none else .ok (some (t * 10)))
        = .ok r
      ∧ ((2 : ℕ), "处理失败") ∈ r.failed
      ∧ r.success = ([1, 2] : List ℕ).filterMap
          (fun u => itemSuccess 3
            ((fun t _ => if t = 2 then .ok none else .ok (some (t * 10))) u)) :=
  ⟨by decide, by decide, by decide,
    executeBatch_undefined_counts_as_failure 5 3 (by decide) (by decide) [1, 2]
      (fun t _ => if t = 2 then .ok none else .ok (some (t * 10)))
      2 (by decide) rfl⟩

/-! ### Semaphore invariant (C4) -/

/-- Inductive invariant of the semaphore under well-bracketed use:
active holders plus free permits always equal the configured permit
count, and a non-empty wait queue implies no free permit. -/
def SemInv (p : ℕ) (s : SemState) : Prop :=
  s.active + s.permits = p ∧ (s.waitQueue ≠ [] → s.permits = 0)

theorem semAcquire_inv {p : ℕ} {s : SemState} (caller : ℕ) (h : SemInv p s) :
    SemInv p (semAcquire s caller) := by
  obtain ⟨perm, q, act⟩ := s
  obtain ⟨hsum, hq⟩ := h
  have hsum' : act + perm = p := hsum
  unfold semAcquire
  split_ifs with hp
  · have hp' : 0 < perm := hp
    refine ⟨?_, fun hne => ?_⟩
    · show act + 1 + (perm - 1) = p
      omega
    · show perm - 1 = 0
      have h0 : perm = 0 := hq hne
      omega
  · have hp' : ¬ 0 < perm := hp
    refine ⟨?_, fun _ => ?_⟩
    · show act + perm = p
      omega
    · show perm = 0
      omega

theorem semRelease_inv {p : ℕ} {s : SemState} (h : SemInv p s)
    (hact : 0 < s.active) : SemInv p (semRelease s) := by
  obtain ⟨perm, q, act⟩ := s
  obtain ⟨hsum, hq⟩ := h
  have hsum' : act + perm = p := hsum
  have hact' : 0 < act := hact
  cases q with
  | nil =>
      refine ⟨?_, fun hne => absurd rfl hne⟩
      show act - 1 + (perm + 1) = p
      omega
  | cons w rest =>
      have h0 : perm = 0 := hq (by simp)
      refine ⟨?_, fun _ => ?_⟩
      · show act + perm = p
        omega
      · show perm = 0
        omega

theorem semReachable_inv (p : ℕ) (s : SemState) (h : SemReachable p s) :
    SemInv p s := by
  induction h with
  | refl => exact ⟨by simp [semInit], by simp [semInit]⟩
  | tail _ hstep ih =>
      cases hstep with
      | acq caller s => exact semAcquire_inv caller ih
      | rel s hact => exact semRelease_inv ih hact

/-- C4: in every state reachable from a fresh `Semaphore(p)` by
well-bracketed `acquire`/`release` steps (a release is performed by a
holder, i.e. requires one completed un-released acquisition — in the
source, `release()` runs in the `finally` of a block entered only after
`acquire()` resolved), the number of completed-but-unreleased
acquisitions never exceeds `p`; and whenever the wait queue is
non-empty, there is no free permit and `release` hands over to the
queue's head — the longest-waiting acquirer, since `acquire` enqueues at
the tail — leaving the free-permit counter untouched, rather than
incrementing it. -/
theorem semaphore_bounded_fifo (p : ℕ) (s : SemState) (h : SemReachable p s) :
    s.active ≤ p
    ∧ (∀ w rest, s.waitQueue = w :: rest →
        s.permits = 0
        ∧ semRelease s
            = { permits := s.permits, waitQueue := rest, active := s.active })
    ∧ (s.permits = 0 → ∀ caller,
        semAcquire s caller = { s with waitQueue := s.waitQueue ++ [caller] }) := by
  obtain ⟨hsum, hq⟩ := semReachable_inv p s h
  refine ⟨by omega, ?_, ?_⟩
  · intro w rest hqe
    refine ⟨hq (by rw [hqe]; simp), ?_⟩
    obtain ⟨perm, q, act⟩ := s
    simp only at hqe
    cases hqe
    rfl
  · intro h0 caller
    unfold semAcquire
    rw [h0]
    simp

/-- Witness for C4: `Semaphore(2)` after three acquires (callers 3, 4, 5):
two active holders, caller 5 queued. -/
theorem semaphore_bounded_fifo_witness :
    SemReachable 2 ⟨0, [5], 2⟩
    ∧ ((⟨0, [5], 2⟩ : SemState).active ≤ 2
      ∧ (∀ w rest, (⟨0, [5], 2⟩ : SemState).waitQueue = w :: rest →
          (⟨0, [5], 2⟩ : SemState).permits = 0
          ∧ semRelease ⟨0, [5], 2⟩
              = { permits := (⟨0, [5], 2⟩ : SemState).permits,
                  waitQueue := rest,
                  active := (⟨0, [5], 2⟩ : SemState).active })
      ∧ ((⟨0, [5], 2⟩ : SemState).permits = 0 → ∀ caller,
          semAcquire ⟨0, [5], 2⟩ caller
            = { (⟨0, [5], 2⟩ : SemState) with
                waitQueue := (⟨0, [5], 2⟩ : SemState).waitQueue ++ [caller] })) := by
  have htrace : SemReachable 2 ⟨0, [5], 2⟩ :=
    Relation.ReflTransGen.head (SemStep.acq 3 _)
      (Relation.ReflTransGen.head (SemStep.acq 4 _)
        (Relation.ReflTransGen.head (SemStep.acq 5 _) Relation.ReflTransGen.refl))
  exact ⟨htrace, semaphore_bounded_fifo 2 ⟨0, [5], 2⟩ htrace⟩


/-! ### RetryManager lemmas -/

theorem updateAverageAttempts_totalAttempts (st : RetryStats) :
    (updateAverageAttempts st).totalAttempts = st.totalAttempts := by
  simp only [updateAverageAttempts]
  split_ifs <;> rfl

theorem updateAverageAttempts_successfulRetries (st : RetryStats) :
    (updateAverageAttempts st).successfulRetries = st.successfulRetries := by
  simp only [updateAverageAttempts]
  split_ifs <;> rfl

theorem updateAverageAttempts_failedRetries (st : RetryStats) :
    (updateAverageAttempts st).failedRetries = st.failedRetries := by
  simp only [updateAverageAttempts]
  split_ifs <;> rfl

theorem updateAverageAttempts_avg (st : RetryStats)
    (h : 0 < st.successfulRetries + st.failedRetries) :
    (updateAverageAttempts st).averageAttempts
      = ((updateAverageAttempts st).totalAttempts : ℚ)
        / (((updateAverageAttempts st).successfulRetries : ℚ)
           + ((updateAverageAttempts st).failedRetries : ℚ)) := by
  rw [updateAverageAttempts_totalAttempts, updateAverageAttempts_successfulRetries,
    updateAverageAttempts_failedRetries]
  simp only [updateAverageAttempts]
  rw [if_pos h]
  show (st.totalAttempts : ℚ) / ((st.successfulRetries + st.failedRetries : ℕ) : ℚ)
    = (st.totalAttempts : ℚ) / ((st.successfulRetries : ℚ) + (st.failedRetries : ℚ))
  push_cast
  ring

theorem retryRun_eq_ok {V : Type} (op : ℕ → Except ErrorInfo V) (rl : List String)
    (a left : ℕ) (st : RetryStats) (c : ℕ) (v : V) (hop : op a = .ok v) :
    retryRun op rl a left st c
      = (.success v,
         updateAverageAttempts
           (if 0 < a then
             { st with totalAttempts := st.totalAttempts + 1,
                       successfulRetries := st.successfulRetries + 1 }
            else { st with totalAttempts := st.totalAttempts + 1 }),
         c + 1) := by
  rw [retryRun, hop]

theorem retryRun_eq_exhausted {V : Type} (op : ℕ → Except ErrorInfo V)
    (rl : List String) (a : ℕ) (st : RetryStats) (c : ℕ) (e : ErrorInfo)
    (hop : op a = .error e) (hre : isRetryableError e rl = true) :
    retryRun op rl a 0 st c
      = (.exhausted e,
         updateAverageAttempts
           { st with totalAttempts := st.totalAttempts + 1,
                     failedRetries := st.failedRetries + 1 },
         c + 1) := by
  rw [retryRun, hop]
  dsimp only
  rw [if_pos hre]

theorem retryRun_eq_retry {V : Type} (op : ℕ → Except ErrorInfo V)
    (rl : List String) (a l : ℕ) (st : RetryStats) (c : ℕ) (e : ErrorInfo)
    (hop : op a = .error e) (hre : isRetryableError e rl = true) :
    retryRun op rl a (l + 1) st c
      = retryRun op rl (a + 1) l
          { st with totalAttempts := st.totalAttempts + 1 } (c + 1) := by
  rw [retryRun, hop]
  dsimp only
  rw [if_pos hre]

theorem retryRun_eq_nonretryable {V : Type} (op : ℕ → Except ErrorInfo V)
    (rl : List String) (a left : ℕ) (st : RetryStats) (c : ℕ) (e : ErrorInfo)
    (hop : op a = .error e) (hre : ¬ isRetryableError e rl = true) :
    retryRun op rl a left st c
      = (.nonRetryable e,
         { st with totalAttempts := st.totalAttempts + 1 }, c + 1) := by
  rw [retryRun, hop]
  dsimp only
  rw [if_neg hre]

theorem retryRun_invocations {V : Type} (op : ℕ → Except ErrorInfo V)
    (rl : List String) (left : ℕ) :
    ∀ (attempt : ℕ) (st : RetryStats) (c : ℕ),
      c + 1 ≤ (retryRun op rl attempt left st c).2.2
      ∧ (retryRun op rl attempt left st c).2.2 ≤ c + left + 1
      ∧ (retryRun op rl attempt left st c).2.1.totalAttempts
          = st.totalAttempts + ((retryRun op rl attempt left st c).2.2 - c) := by
  induction left with
  | zero =>
      intro a st c
      cases hop : op a with
      | ok v =>
          rw [retryRun_eq_ok op rl a 0 st c v hop]
          dsimp only
          refine ⟨le_rfl, le_rfl, ?_⟩
          rw [updateAverageAttempts_totalAttempts]
          split_ifs <;>
            · show st.totalAttempts + 1 = st.totalAttempts + (c + 1 - c)
              omega
      | error e =>
          by_cases hre : isRetryableError e rl = true
          · rw [retryRun_eq_exhausted op rl a st c e hop hre]
            dsimp only
            refine ⟨le_rfl, le_rfl, ?_⟩
            rw [updateAverageAttempts_totalAttempts]
            show st.totalAttempts + 1 = st.totalAttempts + (c + 1 - c)
            omega
          · rw [retryRun_eq_nonretryable op rl a 0 st c e hop hre]
            dsimp only
            refine ⟨le_rfl, le_rfl, ?_⟩
            show st.totalAttempts + 1 = st.totalAttempts + (c + 1 - c)
            omega
  | succ l ih =>
      intro a st c
      cases hop : op a with
      | ok v =>
          rw [retryRun_eq_ok op rl a (l + 1) st c v hop]
          dsimp only
          refine ⟨le_rfl, by omega, ?_⟩
          rw [updateAverageAttempts_totalAttempts]
          split_ifs <;>
            · show st.totalAttempts + 1 = st.totalAttempts + (c + 1 - c)
              omega
      | error e =>
          by_cases hre : isRetryableError e rl = true
          · rw [retryRun_eq_retry op rl a l st c e hop hre]
            have h2 := ih (a + 1) { st with totalAttempts := st.totalAttempts + 1 } (c + 1)
            have h3 : ({ st with totalAttempts := st.totalAttempts + 1 } : RetryStats).totalAttempts
                = st.totalAttempts + 1 := rfl
            refine ⟨by omega, by omega, by omega⟩
          · rw [retryRun_eq_nonretryable op rl a (l + 1) st c e hop hre]
            dsimp only
            refine ⟨le_rfl, by omega, ?_⟩
            show st.totalAttempts + 1 = st.totalAttempts + (c + 1 - c)
            omega

theorem retryRun_first_success {V : Type} (op : ℕ → Except ErrorInfo V)
    (rl : List String) (k : ℕ) :
    ∀ (left attempt : ℕ) (st : RetryStats) (c : ℕ) (v : V),
      k ≤ left →
      (∀ j, j < k → ∃ e, op (attempt + j) = .error e ∧ isRetryableError e rl = true) →
      op (attempt + k) = .ok v →
      (retryRun op rl attempt left st c).1 = .success v
        ∧ (retryRun op rl attempt left st c).2.2 = c + (k + 1) := by
  induction k with
  | zero =>
      intro left a st c v _ _ hok
      rw [retryRun_eq_ok op rl a left st c v hok]
      exact ⟨rfl, rfl⟩
  | succ k ih =>
      intro left a st c v hk hprev hok
      obtain ⟨l, rfl⟩ : ∃ l, left = l + 1 := ⟨left - 1, by omega⟩
      obtain ⟨e, he, hre⟩ := hprev 0 (by omega)
      rw [retryRun_eq_retry op rl a l st c e he hre]
      have h2 := ih l (a + 1) { st with totalAttempts := st.totalAttempts + 1 } (c + 1) v
        (by omega)
        (fun j hj => by
          obtain ⟨e', he', hre'⟩ := hprev (j + 1) (by omega)
          exact ⟨e', by rw [show a + 1 + j = a + (j + 1) from by omega]; exact he', hre'⟩)
        (by rw [show a + 1 + k = a + (k + 1) from by omega]; exact hok)
      exact ⟨h2.1, by omega⟩

theorem retryRun_stats_updated {V : Type} (op : ℕ → Except ErrorInfo V)
    (rl : List String) (left : ℕ) :
    ∀ (attempt : ℕ) (st : RetryStats) (c : ℕ),
      (∀ e : ErrorInfo, (retryRun op rl attempt left st c).1 ≠ .nonRetryable e) →
      ∃ st', (retryRun op rl attempt left st c).2.1 = updateAverageAttempts st' := by
  induction left with
  | zero =>
      intro a st c hnr
      cases hop : op a with
      | ok v => exact ⟨_, by rw [retryRun_eq_ok op rl a 0 st c v hop]⟩
      | error e =>
          by_cases hre : isRetryableError e rl = true
          · exact ⟨_, by rw [retryRun_eq_exhausted op rl a st c e hop hre]⟩
          · exact absurd
              (by rw [retryRun_eq_nonretryable op rl a 0 st c e hop hre]) (hnr e)
  | succ l ih =>
      intro a st c hnr
      cases hop : op a with
      | ok v => exact ⟨_, by rw [retryRun_eq_ok op rl a (l + 1) st c v hop]⟩
      | error e =>
          by_cases hre : isRetryableError e rl = true
          · rw [retryRun_eq_retry op rl a l st c e hop hre]
            apply ih (a + 1) { st with totalAttempts := st.totalAttempts + 1 } (c + 1)
            intro e' hcon
            apply hnr e'
            rw [retryRun_eq_retry op rl a l st c e hop hre]
            exact hcon
          · exact absurd
              (by rw [retryRun_eq_nonretryable op rl a (l + 1) st c e hop hre]) (hnr e)

/-- C5: for every operation and retry policy with `maxRetries = m`,
`withRetry` invokes the operation at least once and at most `m + 1`
times, increments `RetryStats.totalAttempts` exactly once per invocation
of the operation, and on the first successful attempt (index `k`, all
earlier attempts having failed retryably) returns that result immediately
after exactly `k + 1` invocations. -/
theorem withRetry_attempt_contract {V : Type} (op : ℕ → Except ErrorInfo V)
    (rl : List String) (m : ℕ) (st : RetryStats) :
    1 ≤ (withRetry op rl m st).2.2
    ∧ (withRetry op rl m st).2.2 ≤ m + 1
    ∧ (withRetry op rl m st).2.1.totalAttempts
        = st.totalAttempts + (withRetry op rl m st).2.2
    ∧ (∀ (k : ℕ) (v : V), k ≤ m →
        (∀ j, j < k → ∃ e, op j = .error e ∧ isRetryableError e rl = true) →
        op k = .ok v →
        (withRetry op rl m st).1 = .success v
          ∧ (withRetry op rl m st).2.2 = k + 1) := by
  unfold withRetry
  have h := retryRun_invocations op rl m 0 st 0
  refine ⟨by omega, by omega, by omega, ?_⟩
  intro k v hk hprev hok
  have h2 := retryRun_first_success op rl k m 0 st 0 v hk
    (fun j hj => by rw [Nat.zero_add]; exact hprev j hj)
    (by rw [Nat.zero_add]; exact hok)
  exact ⟨h2.1, by omega⟩

/-- Witness for C5: the first attempt fails with a retryable timeout, the
second succeeds; `withRetry` stops after 2 invocations with the result. -/
theorem withRetry_attempt_contract_witness :
    (withRetry
        (fun k => if k = 0 then Except.error ⟨"timeout", "Error", none⟩
                  else Except.ok (42 : ℕ))
        defaultRetryableErrors 3 ⟨0, 0, 0, 0⟩).1 = .success 42
    ∧ (withRetry
        (fun k => if k = 0 then Except.error ⟨"timeout", "Error", none⟩
                  else Except.ok (42 : ℕ))
        defaultRetryableErrors 3 ⟨0, 0, 0, 0⟩).2.2 = 1 + 1 := by
  have h := (withRetry_attempt_contract
    (fun k => if k = 0 then Except.error ⟨"timeout", "Error", none⟩
              else Except.ok (42 : ℕ))
    defaultRetryableErrors 3 ⟨0, 0, 0, 0⟩).2.2.2 1 42 (by omega)
    (fun j hj => ⟨⟨"timeout", "Error", none⟩,
      by have hj0 : j = 0 := by omega
         subst hj0
         rfl,
      by decide⟩)
    rfl
  exact h

/-- C6: for every retry attempt index `k ≥ 0` and every draw `rand` of
`Math.random()` (`0 ≤ rand < 1`), with `baseDelay ≥ 0` the delay computed
by `calculateDelay` equals `min(base_k + j, maxDelay)` for a jitter `j`
with `0 ≤ j ≤ 0.1 · base_k`, where the pre-jitter delay `base_k` is
`baseDelay·(k+1)` (linear), `baseDelay·2^k` (exponential) or `baseDelay`
(fixed). -/
theorem calculateDelay_formula (strategy : BackoffStrategy)
    (baseDelay maxDelay : ℚ) (k : ℕ) (rand : ℚ) (h0 : 0 ≤ rand) (h1 : rand < 1)
    (hb : 0 ≤ baseDelay) :
    (∃ j : ℚ, 0 ≤ j ∧ j ≤ (1 / 10) * baseDelayFor strategy baseDelay k
      ∧ calculateDelay strategy baseDelay maxDelay k rand
          = min (baseDelayFor strategy baseDelay k + j) maxDelay)
    ∧ baseDelayFor .linear baseDelay k = baseDelay * (k + 1)
    ∧ baseDelayFor .exponential baseDelay k = baseDelay * 2 ^ k
    ∧ baseDelayFor .fixed baseDelay k = baseDelay := by
  have hbf : 0 ≤ baseDelayFor strategy baseDelay k := by
    cases strategy <;> simp only [baseDelayFor] <;> positivity
  refine ⟨⟨rand * (1 / 10) * baseDelayFor strategy baseDelay k, ?_, ?_, rfl⟩,
    rfl, rfl, rfl⟩
  · positivity
  · nlinarith [hbf, h0, h1]

/-- Witness for C6: exponential strategy, `baseDelay = 1000`,
`maxDelay = 10000`, attempt 2, `rand = 1/2`. -/
theorem calculateDelay_formula_witness :
    (0 : ℚ) ≤ 1 / 2 ∧ (1 / 2 : ℚ) < 1 ∧ (0 : ℚ) ≤ 1000 ∧
    ((∃ j : ℚ, 0 ≤ j ∧ j ≤ (1 / 10) * baseDelayFor .exponential 1000 2
      ∧ calculateDelay .exponential 1000 10000 2 (1 / 2)
          = min (baseDelayFor .exponential 1000 2 + j) 10000)
    ∧ baseDelayFor .linear (1000 : ℚ) 2 = 1000 * (2 + 1)
    ∧ baseDelayFor .exponential (1000 : ℚ) 2 = 1000 * 2 ^ 2
    ∧ baseDelayFor .fixed (1000 : ℚ) 2 = 1000) :=
  ⟨by norm_num, by norm_num, by norm_num,
    calculateDelay_formula .exponential 1000 10000 2 (1 / 2)
      (by norm_num) (by norm_num) (by norm_num)⟩

/-- C8: whenever a `withRetry` invocation completes by returning a
successful result or by exhausting its retries (the non-retryable rethrow
is the one exit that skips the recompute), the resulting process-wide
`RetryStats` satisfies
`averageAttempts = totalAttempts / (successfulRetries + failedRetries)`,
provided that denominator is positive. -/
theorem withRetry_average_recomputed {V : Type} (op : ℕ → Except ErrorInfo V)
    (rl : List String) (m : ℕ) (st : RetryStats)
    (hdone : (∃ v, (withRetry op rl m st).1 = .success v)
      ∨ (∃ e, (withRetry op rl m st).1 = .exhausted e))
    (hpos : 0 < (withRetry op rl m st).2.1.successfulRetries
      + (withRetry op rl m st).2.1.failedRetries) :
    (withRetry op rl m st).2.1.averageAttempts
      = ((withRetry op rl m st).2.1.totalAttempts : ℚ)
        / (((withRetry op rl m st).2.1.successfulRetries : ℚ)
          + ((withRetry op rl m st).2.1.failedRetries : ℚ)) := by
  have hnr : ∀ e : ErrorInfo, (withRetry op rl m st).1 ≠ .nonRetryable e := by
    intro e hcon
    rcases hdone with ⟨v, hv⟩ | ⟨e', he'⟩
    · rw [hcon] at hv
      simp at hv
    · rw [hcon] at he'
      simp at he'
  obtain ⟨st', hst'⟩ := retryRun_stats_updated op rl m 0 st 0 hnr
  have hw : (withRetry op rl m st).2.1 = updateAverageAttempts st' := hst'
  rw [hw] at hpos ⊢
  rw [updateAverageAttempts_successfulRetries, updateAverageAttempts_failedRetries]
    at hpos
  exact updateAverageAttempts_avg st' hpos

/-- Witness for C8: an always-failing retryable operation with
`maxRetries = 1` exhausts its retries; afterwards
`averageAttempts = totalAttempts / (successfulRetries + failedRetries)`. -/
theorem withRetry_average_recomputed_witness :
    (withRetry (fun _ => (Except.error ⟨"timeout", "Error", none⟩ : Except ErrorInfo ℕ))
        defaultRetryableErrors 1 ⟨0, 0, 0, 0⟩).2.1.averageAttempts
      = ((withRetry (fun _ => (Except.error ⟨"timeout", "Error", none⟩ : Except ErrorInfo ℕ))
            defaultRetryableErrors 1 ⟨0, 0, 0, 0⟩).2.1.totalAttempts : ℚ)
        / (((withRetry (fun _ => (Except.error ⟨"timeout", "Error", none⟩ : Except ErrorInfo ℕ))
              defaultRetryableErrors 1 ⟨0, 0, 0, 0⟩).2.1.successfulRetries : ℚ)
          + ((withRetry (fun _ => (Except.error ⟨"timeout", "Error", none⟩ : Except ErrorInfo ℕ))
              defaultRetryableErrors 1 ⟨0, 0, 0, 0⟩).2.1.failedRetries : ℚ)) :=
  withRetry_average_recomputed
    (fun _ => (Except.error ⟨"timeout", "Error", none⟩ : Except ErrorInfo ℕ))
    defaultRetryableErrors 1 ⟨0, 0, 0, 0⟩
    (Or.inr ⟨⟨"timeout", "Error", none⟩, by decide⟩)
    (by decide)

/-! ### Adaptive tuning (C3) -/

/-- Spec-side statement of the memory-pressure adjustment (spec section
"Adaptive tuning", first bullet), as a standalone transformation. -/
def specMemoryAdjust (config : BatchConfig) (memoryUsage : ℚ) : BatchConfig :=
  if memoryUsage > config.memoryThreshold * (8 / 10) then
    { config with
      batchSize := max 1 (⌊config.batchSize * (7 / 10)⌋ : ℚ),
      delay := min (config.delay * (3 / 2)) 1000 }
  else config

/-- Spec-side statement of the processing-time adjustment (spec section
"Adaptive tuning", second and third bullets): an `if` / `else if` pair,
of which at most one branch applies. -/
def specTimeAdjust (config : BatchConfig) (memoryUsage processingTime : ℚ) :
    BatchConfig :=
  if processingTime > 10000 then
    { config with maxConcurrency := max 1 (config.maxConcurrency - 1) }
  else if processingTime < 2000 ∧ memoryUsage < config.memoryThreshold * (1 / 2) then
    { config with
      maxConcurrency := min 5 (config.maxConcurrency + 1),
      batchSize := min 10 (config.batchSize + 1) }
  else config

theorem specMemoryAdjust_maxConcurrency (c : BatchConfig) (m : ℚ) :
    (specMemoryAdjust c m).maxConcurrency = c.maxConcurrency := by
  unfold specMemoryAdjust
  split_ifs <;> rfl

theorem specMemoryAdjust_retryAttempts (c : BatchConfig) (m : ℚ) :
    (specMemoryAdjust c m).retryAttempts = c.retryAttempts := by
  unfold specMemoryAdjust
  split_ifs <;> rfl

theorem specMemoryAdjust_timeoutMs (c : BatchConfig) (m : ℚ) :
    (specMemoryAdjust c m).timeoutMs = c.timeoutMs := by
  unfold specMemoryAdjust
  split_ifs <;> rfl

theorem specMemoryAdjust_memoryThreshold (c : BatchConfig) (m : ℚ) :
    (specMemoryAdjust c m).memoryThreshold = c.memoryThreshold := by
  unfold specMemoryAdjust
  split_ifs <;> rfl

theorem specMemoryAdjust_delay_of_not (c : BatchConfig) (m : ℚ)
    (h : ¬ m > c.memoryThreshold * (8 / 10)) :
    (specMemoryAdjust c m).delay = c.delay := by
  unfold specMemoryAdjust
  rw [if_neg h]

theorem specTimeAdjust_retryAttempts (c : BatchConfig) (m t : ℚ) :
    (specTimeAdjust c m t).retryAttempts = c.retryAttempts := by
  unfold specTimeAdjust
  split_ifs <;> rfl

theorem specTimeAdjust_timeoutMs (c : BatchConfig) (m t : ℚ) :
    (specTimeAdjust c m t).timeoutMs = c.timeoutMs := by
  unfold specTimeAdjust
  split_ifs <;> rfl

theorem specTimeAdjust_memoryThreshold (c : BatchConfig) (m t : ℚ) :
    (specTimeAdjust c m t).memoryThreshold = c.memoryThreshold := by
  unfold specTimeAdjust
  split_ifs <;> rfl

theorem specTimeAdjust_delay (c : BatchConfig) (m t : ℚ) :
    (specTimeAdjust c m t).delay = c.delay := by
  unfold specTimeAdjust
  split_ifs <;> rfl

theorem specTimeAdjust_maxConcurrency_of_not (c : BatchConfig) (m t : ℚ)
    (ht : ¬ t > 10000) (h3 : ¬ (t < 2000 ∧ m < c.memoryThreshold * (1 / 2))) :
    (specTimeAdjust c m t).maxConcurrency = c.maxConcurrency := by
  unfold specTimeAdjust
  rw [if_neg ht, if_neg h3]

/-- C3 counterexample: at `memoryUsageMB = 90`, `processingTimeMs = 20000`
on the default configuration, one single call both shrinks `batchSize`
(and grows `delay`) via the memory branch AND decrements `maxConcurrency`
via the time branch — the source has two independent `if` statements, not
one `if`/`else if`/`else if` chain, so two branches apply in one call and
`maxConcurrency`, a field outside the taken memory branch, changes. -/
theorem adaptiveOptimization_two_branches_cex :
    (adaptiveOptimization DEFAULT_BATCH_CONFIG 90 20000).batchSize = 3
    ∧ (adaptiveOptimization DEFAULT_BATCH_CONFIG 90 20000).delay = 150
    ∧ (adaptiveOptimization DEFAULT_BATCH_CONFIG 90 20000).maxConcurrency = 2
    ∧ DEFAULT_BATCH_CONFIG.batchSize = 5
    ∧ DEFAULT_BATCH_CONFIG.delay = 100
    ∧ DEFAULT_BATCH_CONFIG.maxConcurrency = 3
    ∧ ¬ ((adaptiveOptimization DEFAULT_BATCH_CONFIG 90 20000).batchSize
          = DEFAULT_BATCH_CONFIG.batchSize
        ∨ (adaptiveOptimization DEFAULT_BATCH_CONFIG 90 20000).maxConcurrency
          = DEFAULT_BATCH_CONFIG.maxConcurrency) := by
  have hres : adaptiveOptimization DEFAULT_BATCH_CONFIG 90 20000
      = { batchSize := 3, maxConcurrency := 2, delay := 150,
          retryAttempts := 3, timeoutMs := 30000, memoryThreshold := 100 } := by
    unfold adaptiveOptimization DEFAULT_BATCH_CONFIG
    rw [if_pos (by norm_num : (90 : ℚ) > 100 * (8 / 10))]
    rw [if_pos (by norm_num : (20000 : ℚ) > 10000)]
    simp only [BatchConfig.mk.injEq]
    norm_num [max_def, min_def]
  rw [hres]
  refine ⟨rfl, rfl, rfl, rfl, rfl, rfl, ?_⟩
  intro hcon
  rcases hcon with h | h <;> norm_num [DEFAULT_BATCH_CONFIG] at h

/-- C3 (amended): `adaptiveOptimization` is the memory-pressure
adjustment (applied whenever its condition holds), followed by the
processing-time adjustment, of which at most one of the two time branches
applies (they form an `if`/`else if`); the memory branch and one time
branch CAN both apply in a single call.  Fields in no branch
(`retryAttempts`, `timeoutMs`, `memoryThreshold`) never change; `delay`
changes only under the memory branch; `maxConcurrency` changes only under
a time branch. -/
theorem adaptiveOptimization_two_stage (c : BatchConfig) (m t : ℚ) :
    adaptiveOptimization c m t = specTimeAdjust (specMemoryAdjust c m) m t
    ∧ (adaptiveOptimization c m t).retryAttempts = c.retryAttempts
    ∧ (adaptiveOptimization c m t).timeoutMs = c.timeoutMs
    ∧ (adaptiveOptimization c m t).memoryThreshold = c.memoryThreshold
    ∧ (¬ m > c.memoryThreshold * (8 / 10) →
        (adaptiveOptimization c m t).delay = c.delay)
    ∧ (¬ t > 10000 → ¬ (t < 2000 ∧ m < c.memoryThreshold * (1 / 2)) →
        (adaptiveOptimization c m t).maxConcurrency = c.maxConcurrency) := by
  have hcomp : adaptiveOptimization c m t = specTimeAdjust (specMemoryAdjust c m) m t :=
    rfl
  refine ⟨hcomp, ?_, ?_, ?_, ?_, ?_⟩
  · rw [hcomp, specTimeAdjust_retryAttempts, specMemoryAdjust_retryAttempts]
  · rw [hcomp, specTimeAdjust_timeoutMs, specMemoryAdjust_timeoutMs]
  · rw [hcomp, specTimeAdjust_memoryThreshold, specMemoryAdjust_memoryThreshold]
  · intro hmem
    rw [hcomp, specTimeAdjust_delay, specMemoryAdjust_delay_of_not c m hmem]
  · intro ht h3
    rw [hcomp, specTimeAdjust_maxConcurrency_of_not (specMemoryAdjust c m) m t ht
      (by rw [specMemoryAdjust_memoryThreshold]; exact h3),
      specMemoryAdjust_maxConcurrency]

/-- Witness for C3 (amended) at the two-branch input of the
counterexample: both stages applied, untouched fields preserved. -/
theorem adaptiveOptimization_two_stage_witness :
    (adaptiveOptimization DEFAULT_BATCH_CONFIG 90 20000
        = specTimeAdjust (specMemoryAdjust DEFAULT_BATCH_CONFIG 90) 90 20000)
    ∧ (adaptiveOptimization DEFAULT_BATCH_CONFIG 90 20000).retryAttempts
        = DEFAULT_BATCH_CONFIG.retryAttempts
    ∧ (adaptiveOptimization DEFAULT_BATCH_CONFIG 90 20000).timeoutMs
        = DEFAULT_BATCH_CONFIG.timeoutMs
    ∧ (adaptiveOptimization DEFAULT_BATCH_CONFIG 90 20000).memoryThreshold
        = DEFAULT_BATCH_CONFIG.memoryThreshold
    ∧ (¬ (90 : ℚ) > DEFAULT_BATCH_CONFIG.memoryThreshold * (8 / 10) →
        (adaptiveOptimization DEFAULT_BATCH_CONFIG 90 20000).delay
          = DEFAULT_BATCH_CONFIG.delay)
    ∧ (¬ (20000 : ℚ) > 10000 →
        ¬ ((20000 : ℚ) < 2000
            ∧ (90 : ℚ) < DEFAULT_BATCH_CONFIG.memoryThreshold * (1 / 2)) →
        (adaptiveOptimization DEFAULT_BATCH_CONFIG 90 20000).maxConcurrency
          = DEFAULT_BATCH_CONFIG.maxConcurrency) :=
  adaptiveOptimization_two_stage DEFAULT_BATCH_CONFIG 90 20000
